import Mathlib

/-!
Verification development for the tkseal secret reconciliation pipeline.

The definitions below are a shallow embedding of the Python sources of the
tkseal repository (src/tkseal/configuration.py, secret.py, serializers.py,
tkseal_utils.py, diff.py, secret_state.py, seal.py).  Pure functions are
translated to Lean functions; raising code is modelled with Except; the
cluster-fetch cache is modelled as an explicit state machine.  External
library calls (base64, json, yaml, difflib) are modelled by executable Lean
functions whose behaviour matches the library on the inputs this program
feeds them; each such model carries a doc comment naming the library call.
-/

set_option linter.unusedVariables false

/-- Allowed secret types that tkseal can manage
(configuration.MANAGED_SECRET_TYPES). -/
def MANAGED_SECRET_TYPES : List String :=
  ["Opaque", "kubernetes.io/basic-auth", "kubernetes.io/ssh-auth"]

/-- Allowed secret types that tkseal can manage but with extra caution
(configuration.MANAGED_SECRET_CAREFULLY_TYPES). -/
def MANAGED_SECRET_CAREFULLY_TYPES : List String :=
  ["kubernetes.io/dockerconfigjson"]

/-- Never-allowed, system-managed secret types
(configuration.FORBIDDEN_SECRET_TYPES). -/
def FORBIDDEN_SECRET_TYPES : List String :=
  ["kubernetes.io/service-account-token",
   "bootstrap.kubernetes.io/token",
   "helm.sh/release.v1",
   "kubernetes.io/tls"]

/-- File name stem for the plain (unencrypted) secrets file
(configuration.PLAIN_SECRETS_FILE). -/
def PLAIN_SECRETS_FILE : String := "plain_secrets"

/-- File name stem for the sealed (encrypted) secrets file
(configuration.SEALED_SECRETS_FILE). -/
def SEALED_SECRETS_FILE : String := "sealed_secrets"

/-- Value of a character in the standard base64 alphabet, if any.
Models the alphabet table used by Python base64.b64decode. -/
def b64CharVal (c : Char) : Option Nat :=
  if 'A' ≤ c ∧ c ≤ 'Z' then some (c.toNat - 65)
  else if 'a' ≤ c ∧ c ≤ 'z' then some (c.toNat - 97 + 26)
  else if '0' ≤ c ∧ c ≤ '9' then some (c.toNat - 48 + 52)
  else if c = '+' then some 62
  else if c = '/' then some 63
  else none

/-- Reassemble bytes from a list of 6-bit values, three bytes per quad;
a trailing group of two or three values yields one or two bytes. -/
def b64DecodeQuads : List Nat → List Nat
  | a :: b :: c :: d :: rest =>
      (a * 4 + b / 16) :: ((b % 16) * 16 + c / 4) :: ((c % 4) * 64 + d) ::
        b64DecodeQuads rest
  | [a, b] => [a * 4 + b / 16]
  | [a, b, c] => [a * 4 + b / 16, (b % 16) * 16 + c / 4]
  | _ => []

/-- Message of the padding error raised by Python binascii for base64 input
whose data-character count does not fit the padding. -/
def incorrectPaddingMsg : String := "Incorrect padding"

/-- Message of the error raised by Python base64.b64decode when the number of
data characters is 1 more than a multiple of 4. -/
def invalidCharCountMsg : String :=
  "Invalid base64-encoded string: number of data characters cannot be 1 more than a multiple of 4"

/-- Message of the UnicodeDecodeError raised by bytes.decode() on non-UTF-8
payload bytes (modelled for the ASCII subset: any byte above 127 fails). -/
def invalidUtf8Msg : String := "utf-8 codec cannot decode byte"

/-- Model of Python base64.b64decode (validate=False): characters outside the
base64 alphabet and the pad are discarded, data characters stop at the first
pad, and the data-character count must fit the padding; returns raw bytes. -/
def b64decodeToBytes (s : String) : Except String (List Nat) :=
  let kept := s.data.filter (fun c => (b64CharVal c).isSome || c == '=')
  let dataChars := kept.takeWhile (fun c => c != '=')
  let pads := kept.length - dataChars.length
  let vals := dataChars.filterMap b64CharVal
  match vals.length % 4 with
  | 0 => .ok (b64DecodeQuads vals)
  | 1 => .error invalidCharCountMsg
  | 2 => if pads ≥ 2 then .ok (b64DecodeQuads vals) else .error incorrectPaddingMsg
  | _ => if pads ≥ 1 then .ok (b64DecodeQuads vals) else .error incorrectPaddingMsg

/-- Model of bytes.decode() restricted to the ASCII subset of UTF-8: every
byte below 128 maps to the corresponding character, any other byte fails. -/
def bytesToAscii (bs : List Nat) : Except String String :=
  if bs.all (fun b => decide (b < 128)) then
    .ok (String.mk (bs.map (fun b => Char.ofNat b)))
  else .error invalidUtf8Msg

/-- Model of base64.b64decode(encoded_value).decode() as used by Secret.data. -/
def b64decodeStr (s : String) : Except String String := do
  let bs ← b64decodeToBytes s
  bytesToAscii bs

/-- Raw cluster secret record, the element shape of the items array of the
kubectl listing: metadata.name, an optional type tag, and the data mapping
(a missing data key is modelled as the empty mapping, matching
raw.get("data", \x7b\x7d) in the source). -/
structure RawSecret where
  name : String
  type? : Option String
  data : List (String × String)
deriving Repr, DecidableEq

/-- Decoded key/value pair of a manageable secret (secret.SecretDataPair). -/
structure SecretDataPair where
  key : String
  plain_value : String
  encoded_value : String
deriving Repr, DecidableEq

/-- Decode the data pairs of a record in order; the first failing value
aborts, as the Python loop in Secret.data does. -/
def decodePairs : List (String × String) → Except String (List SecretDataPair)
  | [] => .ok []
  | (k, ev) :: rest => do
      let pv ← b64decodeStr ev
      let tail ← decodePairs rest
      .ok (⟨k, pv, ev⟩ :: tail)

/-- The Secret.data property: base64-decode every value of the data mapping
into plaintext pairs.  The source applies base64.b64decode directly with no
try/except, so a malformed value propagates the library error unchanged. -/
def Secret.data (raw : RawSecret) : Except String (List SecretDataPair) :=
  decodePairs raw.data

/-- The Secret.type property: raw.get("type", "") — the empty string when the
record carries no type field. -/
def Secret.type (raw : RawSecret) : String := raw.type?.getD ""

/-- Error message produced by ForbiddenSecret.data (quotes around the name
kept from the source f-string). -/
def forbiddenDataMsg (nm : String) : String :=
  "Forbidden secret \"" ++ nm ++ "\" data cannot be accessed or sealed"

/-- The ForbiddenSecret.data override: always raises TKSealError, never
yields pairs. -/
def ForbiddenSecret.data (raw : RawSecret) : Except String (List SecretDataPair) :=
  .error (forbiddenDataMsg raw.name)

/-- Raw kubectl listing: a mapping that may or may not carry the items key
(none models the key being absent, which Secrets.init rejects). -/
structure RawSecrets where
  items? : Option (List RawSecret)
deriving Repr, DecidableEq

/-- The allowed-type set built in Secrets.init:
MANAGED_SECRET_TYPES union MANAGED_SECRET_CAREFULLY_TYPES. -/
def Secrets.allowed_types : List String :=
  MANAGED_SECRET_TYPES ++ MANAGED_SECRET_CAREFULLY_TYPES

/-- The filter used by Secrets.get_forbidden_secrets:
raw.get("type") in FORBIDDEN_SECRET_TYPES (a record with no type field is
not forbidden, since None is not in the set). -/
def isForbiddenRaw (raw : RawSecret) : Bool :=
  match raw.type? with
  | some t => FORBIDDEN_SECRET_TYPES.contains t
  | none => false

/-- Secrets.get_forbidden_secrets: the records of the listing whose type is
in the forbidden set. -/
def Secrets.get_forbidden_secrets (rs : RawSecrets) : List RawSecret :=
  (rs.items?.getD []).filter isForbiddenRaw

/-- The filter used for Secrets.items in Secrets.init:
raw.get("type", "Opaque") in allowed_types — a record with no type field
defaults to Opaque. -/
def isManageableRaw (raw : RawSecret) : Bool :=
  Secrets.allowed_types.contains (raw.type?.getD "Opaque")

/-- The state of a constructed Secrets object: the manageable items and the
forbidden list. -/
structure SecretsObj where
  items : List RawSecret
  forbidden_secrets : List RawSecret
deriving Repr, DecidableEq

/-- Secrets.__init__: a listing without the items key is a hard error;
otherwise the manageable and forbidden lists are built by the two filters
(the message elides the quotes of the source f-string). -/
def Secrets.init (rs : RawSecrets) : Except String SecretsObj :=
  match rs.items? with
  | none => .error ("Invalid kubectl output: expected dict with items key.")
  | some its =>
      .ok ⟨its.filter isManageableRaw, Secrets.get_forbidden_secrets rs⟩

lemma contains_iff_mem_strings (l : List String) (t : String) :
    l.contains t = true ↔ t ∈ l := by
  simp [List.contains_iff_exists_mem_beq, beq_iff_eq]

lemma forbidden_not_allowed (t : String)
    (h : FORBIDDEN_SECRET_TYPES.contains t = true) :
    Secrets.allowed_types.contains t = false := by
  rw [contains_iff_mem_strings] at h
  simp [FORBIDDEN_SECRET_TYPES] at h
  rcases h with h | h | h | h <;> subst h <;> decide

lemma forbidden_not_manageable (raw : RawSecret)
    (h : isForbiddenRaw raw = true) : isManageableRaw raw = false := by
  unfold isForbiddenRaw at h
  unfold isManageableRaw
  cases htype : raw.type? with
  | none => rw [htype] at h; exact absurd h (by simp)
  | some t =>
      rw [htype] at h
      simp only [Option.getD_some]
      exact forbidden_not_allowed t h

/-- C1: a forbidden secret record (one classified by the forbidden type set)
always fails with the access-denied error when its decoded data is read: the
error carries the record name and no plaintext pairs are ever produced. -/
theorem forbidden_decode_denied (rs : RawSecrets) (raw : RawSecret)
    (h : raw ∈ Secrets.get_forbidden_secrets rs) :
    ForbiddenSecret.data raw = .error (forbiddenDataMsg raw.name) ∧
    (∀ pairs, ForbiddenSecret.data raw ≠ .ok pairs) ∧
    (∃ pre post, ForbiddenSecret.data raw = .error (pre ++ raw.name ++ post)) := by
  refine ⟨rfl, ?_, ?_⟩
  · intro pairs hc
    simp [ForbiddenSecret.data] at hc
  · exact ⟨"Forbidden secret \"", "\" data cannot be accessed or sealed", rfl⟩

/-- Concrete forbidden record used by the C1 witness. -/
def wForbiddenRaw : RawSecret :=
  ⟨"token-secret", some ("kubernetes.io/service-account-token"), [("token", "YWJj")]⟩

/-- Concrete cluster listing used by the C1 witness. -/
def wForbiddenListing : RawSecrets := ⟨some [wForbiddenRaw]⟩

/-- Witness for C1 at a concrete service-account-token record. -/
theorem forbidden_decode_denied_witness :
    ForbiddenSecret.data wForbiddenRaw = .error (forbiddenDataMsg wForbiddenRaw.name) ∧
    (∀ pairs, ForbiddenSecret.data wForbiddenRaw ≠ .ok pairs) ∧
    (∃ pre post, ForbiddenSecret.data wForbiddenRaw = .error (pre ++ wForbiddenRaw.name ++ post)) :=
  forbidden_decode_denied wForbiddenListing wForbiddenRaw (by decide)

/-- C2: classification of a raw cluster listing is total and deterministic —
every record of the items array lands in exactly one of the manageable list,
the forbidden list, or is dropped; a forbidden type always implies absence
from the manageable list; and a record with no explicit type field is
classified manageable (the safe-type default Opaque). -/
theorem classification_total_forbidden_wins
    (rs : RawSecrets) (its : List RawSecret) (sobj : SecretsObj) (raw : RawSecret)
    (hitems : rs.items? = some its)
    (hinit : Secrets.init rs = .ok sobj)
    (hmem : raw ∈ its) :
    ((raw ∈ sobj.items ∧ raw ∉ sobj.forbidden_secrets) ∨
     (raw ∈ sobj.forbidden_secrets ∧ raw ∉ sobj.items) ∨
     (raw ∉ sobj.items ∧ raw ∉ sobj.forbidden_secrets)) ∧
    (isForbiddenRaw raw = true → raw ∈ sobj.forbidden_secrets ∧ raw ∉ sobj.items) ∧
    (raw.type? = none → raw ∈ sobj.items ∧ raw ∉ sobj.forbidden_secrets) := by
  have hs : sobj = ⟨its.filter isManageableRaw, Secrets.get_forbidden_secrets rs⟩ := by
    unfold Secrets.init at hinit
    rw [hitems] at hinit
    exact (Except.ok.injEq _ _).mp hinit.symm
  subst hs
  have hforb : Secrets.get_forbidden_secrets rs = its.filter isForbiddenRaw := by
    unfold Secrets.get_forbidden_secrets
    rw [hitems]
    rfl
  have hmanMem : raw ∈ its.filter isManageableRaw ↔ isManageableRaw raw = true := by
    rw [List.mem_filter]
    exact ⟨fun h => h.2, fun h => ⟨hmem, h⟩⟩
  have hforbMem : raw ∈ Secrets.get_forbidden_secrets rs ↔ isForbiddenRaw raw = true := by
    rw [hforb, List.mem_filter]
    exact ⟨fun h => h.2, fun h => ⟨hmem, h⟩⟩
  refine ⟨?_, ?_, ?_⟩
  · by_cases hf : isForbiddenRaw raw = true
    · right; left
      refine ⟨hforbMem.mpr hf, ?_⟩
      intro hin
      have := forbidden_not_manageable raw hf
      rw [hmanMem.mp hin] at this
      simp at this
    · by_cases hm : isManageableRaw raw = true
      · left
        exact ⟨hmanMem.mpr hm, fun hin => hf (hforbMem.mp hin)⟩
      · right; right
        exact ⟨fun hin => hm (hmanMem.mp hin), fun hin => hf (hforbMem.mp hin)⟩
  · intro hf
    refine ⟨hforbMem.mpr hf, ?_⟩
    intro hin
    have := forbidden_not_manageable raw hf
    rw [hmanMem.mp hin] at this
    simp at this
  · intro hnone
    have hm : isManageableRaw raw = true := by
      unfold isManageableRaw
      rw [hnone]
      decide
    have hf : isForbiddenRaw raw = false := by
      unfold isForbiddenRaw
      rw [hnone]
    refine ⟨hmanMem.mpr hm, ?_⟩
    intro hin
    rw [hforbMem.mp hin] at hf
    simp at hf

/-- Concrete typeless record used by the C2 witness. -/
def wTypelessRaw : RawSecret := ⟨"app-secret", none, [("password", "c2VjcmV0MTIz")]⟩

/-- Concrete listing used by the C2 witness. -/
def wC2Listing : RawSecrets := ⟨some [wTypelessRaw, wForbiddenRaw]⟩

/-- Concrete Secrets object built by Secrets.init for the C2 witness. -/
def wC2Obj : SecretsObj := ⟨[wTypelessRaw], [wForbiddenRaw]⟩

/-- Witness for C2 at a concrete typeless record of a two-record listing. -/
theorem classification_total_forbidden_wins_witness :
    ((wTypelessRaw ∈ wC2Obj.items ∧ wTypelessRaw ∉ wC2Obj.forbidden_secrets) ∨
     (wTypelessRaw ∈ wC2Obj.forbidden_secrets ∧ wTypelessRaw ∉ wC2Obj.items) ∨
     (wTypelessRaw ∉ wC2Obj.items ∧ wTypelessRaw ∉ wC2Obj.forbidden_secrets)) ∧
    (isForbiddenRaw wTypelessRaw = true →
      wTypelessRaw ∈ wC2Obj.forbidden_secrets ∧ wTypelessRaw ∉ wC2Obj.items) ∧
    (wTypelessRaw.type? = none →
      wTypelessRaw ∈ wC2Obj.items ∧ wTypelessRaw ∉ wC2Obj.forbidden_secrets) :=
  classification_total_forbidden_wins wC2Listing [wTypelessRaw, wForbiddenRaw] wC2Obj
    wTypelessRaw (by decide) (by rfl) (by decide)

/-- JSON values, the in-memory shape produced by json.loads and consumed by
json.dumps.  Objects keep field order, as Python dicts do.  Numeric values
are modelled as integers: the secrets documents this program serializes
carry only strings, arrays and objects. -/
inductive Json where
  | null : Json
  | bool : Bool → Json
  | num : Int → Json
  | str : String → Json
  | arr : List Json → Json
  | obj : List (String × Json) → Json

/-- Opening brace character. -/
def lbraceChar : Char := Char.ofNat 123

/-- Closing brace character. -/
def rbraceChar : Char := Char.ofNat 125

/-- JSON whitespace characters recognized by json.loads. -/
def isJsonWs (c : Char) : Bool := c == ' ' || c == '\t' || c == '\n' || c == '\r'

/-- Drop leading JSON whitespace. -/
def skipWs (cs : List Char) : List Char := cs.dropWhile isJsonWs

/-- Parse the body of a JSON string after the opening quote, handling the
common escapes (the model omits the \u escape, which the secrets documents
this repository handles do not use). -/
def parseStrChars : List Char → Except String (List Char × List Char)
  | [] => .error ("Unterminated string")
  | c :: rest =>
    if c = '"' then .ok ([], rest)
    else if c = '\\' then
      match rest with
      | [] => .error ("Unterminated string")
      | e :: rest2 =>
        let esc? : Option Char :=
          if e = '"' then some '"'
          else if e = '\\' then some '\\'
          else if e = '/' then some '/'
          else if e = 'n' then some '\n'
          else if e = 't' then some '\t'
          else if e = 'r' then some '\r'
          else if e = 'b' then some (Char.ofNat 8)
          else if e = 'f' then some (Char.ofNat 12)
          else none
        match esc? with
        | some ec => do
            let (s, r) ← parseStrChars rest2
            .ok (ec :: s, r)
        | none => .error ("Invalid escape")
    else do
      let (s, r) ← parseStrChars rest
      .ok (c :: s, r)

/-- Decimal digit value of a character, if any. -/
def digitVal (c : Char) : Option Nat :=
  if '0' ≤ c ∧ c ≤ '9' then some (c.toNat - 48) else none

/-- Consume a run of digits, extending the accumulator. -/
def parseDigits : List Char → Nat → (Nat × List Char)
  | [], acc => (acc, [])
  | c :: rest, acc =>
    match digitVal c with
    | some d => parseDigits rest (acc * 10 + d)
    | none => (acc, c :: rest)

mutual

/-- Fuel-indexed recursive-descent parser for a JSON value, the model of
json.loads.  The fuel only bounds nesting; jsonLoads supplies enough fuel
for any input. -/
def parseVal (fuel : Nat) (cs : List Char) : Except String (Json × List Char) :=
  match fuel with
  | 0 => .error ("Expecting value")
  | fuel + 1 =>
    match skipWs cs with
    | [] => .error ("Expecting value")
    | c :: rest =>
      if c = '"' then do
        let (s, r) ← parseStrChars rest
        .ok (Json.str (String.mk s), r)
      else if c = '[' then
        match skipWs rest with
        | ']' :: r2 => .ok (Json.arr [], r2)
        | r2 => do
            let (xs, r3) ← parseArrItems fuel r2
            .ok (Json.arr xs, r3)
      else if c = lbraceChar then
        match skipWs rest with
        | c2 :: r2 =>
            if c2 = rbraceChar then .ok (Json.obj [], r2)
            else do
              let (fs, r3) ← parseObjItems fuel (c2 :: r2)
              .ok (Json.obj fs, r3)
        | [] => .error ("Expecting property name")
      else if c = 't' then
        match rest with
        | 'r' :: 'u' :: 'e' :: r => .ok (Json.bool true, r)
        | _ => .error ("Expecting value")
      else if c = 'f' then
        match rest with
        | 'a' :: 'l' :: 's' :: 'e' :: r => .ok (Json.bool false, r)
        | _ => .error ("Expecting value")
      else if c = 'n' then
        match rest with
        | 'u' :: 'l' :: 'l' :: r => .ok (Json.null, r)
        | _ => .error ("Expecting value")
      else if c = '-' then
        match rest with
        | d :: r0 =>
          match digitVal d with
          | some dv =>
              let (n, r) := parseDigits r0 dv
              .ok (Json.num (-(Int.ofNat n)), r)
          | none => .error ("Expecting value")
        | [] => .error ("Expecting value")
      else
        match digitVal c with
        | some dv =>
            let (n, r) := parseDigits rest dv
            .ok (Json.num (Int.ofNat n), r)
        | none => .error ("Expecting value")

/-- Parse the comma-separated items of a nonempty JSON array up to the
closing bracket. -/
def parseArrItems (fuel : Nat) (cs : List Char) : Except String (List Json × List Char) :=
  match fuel with
  | 0 => .error ("Expecting value")
  | fuel + 1 => do
    let (v, r) ← parseVal fuel cs
    match skipWs r with
    | ',' :: r2 => do
        let (vs, r3) ← parseArrItems fuel r2
        .ok (v :: vs, r3)
    | ']' :: r2 => .ok ([v], r2)
    | _ => .error ("Expecting comma delimiter")

/-- Parse the comma-separated members of a nonempty JSON object up to the
closing brace. -/
def parseObjItems (fuel : Nat) (cs : List Char) : Except String (List (String × Json) × List Char) :=
  match fuel with
  | 0 => .error ("Expecting value")
  | fuel + 1 =>
    match skipWs cs with
    | '"' :: r => do
        let (k, r2) ← parseStrChars r
        match skipWs r2 with
        | ':' :: r3 => do
            let (v, r4) ← parseVal fuel r3
            match skipWs r4 with
            | ',' :: r5 => do
                let (kvs, r6) ← parseObjItems fuel r5
                .ok ((String.mk k, v) :: kvs, r6)
            | c5 :: r5 =>
                if c5 = rbraceChar then .ok ([(String.mk k, v)], r5)
                else .error ("Expecting comma delimiter")
            | [] => .error ("Expecting comma delimiter")
        | _ => .error ("Expecting colon delimiter")
    | _ => .error ("Expecting property name")

end

/-- Model of json.loads: parse one JSON value and require only whitespace
after it. -/
def jsonLoads (s : String) : Except String Json := do
  let (v, r) ← parseVal (2 * s.data.length + 2) s.data
  if (skipWs r).isEmpty then .ok v else .error ("Extra data")

/-- Escape one character for a JSON string literal (the escapes json.dumps
emits for the characters these documents contain). -/
def escapeJsonChar (c : Char) : String :=
  if c = '"' then "\\\""
  else if c = '\\' then "\\\\"
  else if c = '\n' then "\\n"
  else if c = '\t' then "\\t"
  else if c = '\r' then "\\r"
  else String.mk [c]

/-- Render a JSON string literal with quotes. -/
def quoteJson (s : String) : String :=
  "\"" ++ String.join (s.data.map escapeJsonChar) ++ "\""

/-- A run of n spaces. -/
def indentSp (n : Nat) : String := String.mk (List.replicate n ' ')

mutual

/-- Model of json.dumps(value, indent=2) at a given nesting level: empty
containers print inline, nonempty ones one element per line, two further
spaces of indentation per level, key and value separated by a colon and a
space. -/
def jsonDumpsVal (lvl : Nat) (j : Json) : String :=
  match j with
  | .null => "null"
  | .bool true => "true"
  | .bool false => "false"
  | .num n => toString n
  | .str s => quoteJson s
  | .arr [] => "[]"
  | .arr (x :: xs) =>
      "[\n" ++
      String.intercalate ",\n"
        ((jsonDumpsArr (lvl + 1) (x :: xs)).map (fun e => indentSp (2 * (lvl + 1)) ++ e)) ++
      "\n" ++ indentSp (2 * lvl) ++ "]"
  | .obj [] => "\x7b\x7d"
  | .obj (f :: fs) =>
      "\x7b\n" ++
      String.intercalate ",\n"
        ((jsonDumpsObj (lvl + 1) (f :: fs)).map (fun e => indentSp (2 * (lvl + 1)) ++ e)) ++
      "\n" ++ indentSp (2 * lvl) ++ "\x7d"

/-- Render each array element at the given level. -/
def jsonDumpsArr (lvl : Nat) (xs : List Json) : List String :=
  match xs with
  | [] => []
  | x :: rest => jsonDumpsVal lvl x :: jsonDumpsArr lvl rest

/-- Render each object member at the given level. -/
def jsonDumpsObj (lvl : Nat) (fs : List (String × Json)) : List String :=
  match fs with
  | [] => []
  | (k, v) :: rest => (quoteJson k ++ ": " ++ jsonDumpsVal lvl v) :: jsonDumpsObj lvl rest

end

/-- Model of json.dumps(data, indent=2) as called by JSONSerializer and
Secrets.to_json. -/
def jsonDumps (j : Json) : String := jsonDumpsVal 0 j

/-- Model of yaml.safe_load restricted to the JSON subset of YAML: YAML is a
superset of JSON, and on the JSON-shaped documents this repository reads the
two parsers agree, so the json.loads model is reused. -/
def yamlSafeLoad (s : String) : Except String Json := jsonLoads s

/-- Render a YAML scalar (simplified: plain style, no quoting rules; the
theorems of this development never inspect YAML output). -/
def yamlScalarStr (j : Json) : String :=
  match j with
  | .str s => s
  | .num n => toString n
  | .bool true => "true"
  | .bool false => "false"
  | .null => "null"
  | _ => ""

mutual

/-- Simplified model of the block-style body emitted by
yaml.dump(data, default_flow_style=False, sort_keys=False): one line per
scalar, two-space indentation per level.  PyYAML details (inlining the first
mapping key after a dash, block scalars for multiline strings) are
simplified away; no theorem depends on this rendering. -/
def yamlBlock (ind : Nat) (j : Json) : String :=
  match j with
  | .arr xs => yamlBlockArr ind xs
  | .obj fs => yamlBlockObj ind fs
  | other => indentSp ind ++ yamlScalarStr other ++ "\n"

/-- Block rendering of array items. -/
def yamlBlockArr (ind : Nat) (xs : List Json) : String :=
  match xs with
  | [] => ""
  | x :: rest =>
    (match x with
     | .arr ys => indentSp ind ++ "-\n" ++ yamlBlockArr (ind + 2) ys
     | .obj fs => indentSp ind ++ "-\n" ++ yamlBlockObj (ind + 2) fs
     | s => indentSp ind ++ "- " ++ yamlScalarStr s ++ "\n")
    ++ yamlBlockArr ind rest

/-- Block rendering of mapping members. -/
def yamlBlockObj (ind : Nat) (fs : List (String × Json)) : String :=
  match fs with
  | [] => ""
  | (k, v) :: rest =>
    (match v with
     | .arr ys => indentSp ind ++ k ++ ":\n" ++ yamlBlockArr ind ys
     | .obj gs => indentSp ind ++ k ++ ":\n" ++ yamlBlockObj (ind + 2) gs
     | s => indentSp ind ++ k ++ ": " ++ yamlScalarStr s ++ "\n")
    ++ yamlBlockObj ind rest

end

/-- Model of yaml.dump(data, default_flow_style=False, sort_keys=False,
allow_unicode=True): empty containers print in flow style with a newline,
otherwise block style. -/
def yamlDump (j : Json) : String :=
  match j with
  | .arr [] => "[]\n"
  | .obj [] => "\x7b\x7d\n"
  | other => yamlBlock 0 other

/-- A serializer, the interface of serializers.Serializer: deserialization
may fail (json.JSONDecodeError, yaml.YAMLError), serialization is total. -/
structure Serializer where
  deserialize_secrets : String → Except String Json
  serialize_secrets : Json → String

/-- serializers.JSONSerializer. -/
def JSONSerializer : Serializer := ⟨jsonLoads, jsonDumps⟩

/-- serializers.YAMLSerializer. -/
def YAMLSerializer : Serializer := ⟨yamlSafeLoad, yamlDump⟩

/-- serializers.get_serializer: json and yaml are supported, anything else
raises ValueError (message elides the quotes of the source string). -/
def get_serializer (format : String) : Except String Serializer :=
  if format = "json" then .ok JSONSerializer
  else if format = "yaml" then .ok YAMLSerializer
  else .error ("Unsupported format: " ++ format ++ ". Use json or yaml.")

/-- Modelled from the spec: seal.py imports module-level deserialize_secrets
and serialize_secrets from tkseal.serializers, but serializers.py in src
defines only the serializer classes and get_serializer — the module-level
helpers are missing.  Following the spec (the file is deserialized per the
configured encoding into the list-of-record shape, and the result list is
serialized in the configured encoding), they dispatch through
get_serializer. -/
def deserialize_secrets (content : String) (format : String) : Except String Json := do
  let ser ← get_serializer format
  ser.deserialize_secrets content

/-- Modelled from the spec: module-level serialize_secrets, the counterpart
of deserialize_secrets above. -/
def serialize_secrets (data : Json) (format : String) : Except String String := do
  let ser ← get_serializer format
  .ok (ser.serialize_secrets data)

/-- Whitespace characters stripped by Python str.strip(): space, tab,
newline, carriage return, vertical tab, form feed. -/
def isPyWsChar (c : Char) : Bool :=
  c == ' ' || c == '\t' || c == '\n' || c == '\r' ||
  c == Char.ofNat 11 || c == Char.ofNat 12

/-- Model of Python str.strip(): drop leading and trailing whitespace. -/
def pyStrip (s : String) : String :=
  String.mk (((s.data.dropWhile isPyWsChar).reverse.dropWhile isPyWsChar).reverse)

/-- tkseal_utils.normalize_to_json: empty or whitespace-only content and the
literal empty array normalize to the fixed empty-array form before any
serializer is consulted; anything else is deserialized from the source
format and re-serialized as JSON. -/
def normalize_to_json (content : String) (source_format : String) : Except String String :=
  if content = "" || pyStrip content = "" || pyStrip content = "[]" then .ok ("[]")
  else do
    let secret_serializer ← get_serializer source_format
    let data ← secret_serializer.deserialize_secrets content
    let jser ← get_serializer "json"
    .ok (jser.serialize_secrets data)

/-- Split into physical lines keeping the line terminator, the model of
str.splitlines(keepends=True) for newline-terminated text (the other Unicode
line terminators Python also splits on do not occur in serialized secrets). -/
def splitKeepNl (acc : List Char) : List Char → List String
  | [] => if acc.isEmpty then [] else [String.mk acc.reverse]
  | c :: rest =>
    if c = '\n' then String.mk (acc.reverse ++ ['\n']) :: splitKeepNl [] rest
    else splitKeepNl (c :: acc) rest

/-- Model of text.splitlines(keepends=True). -/
def pySplitlines (s : String) : List String := splitKeepNl [] s.data

/-- Model of difflib.unified_diff(a, b, fromfile, tofile, lineterm="").
The model keeps the two properties the program relies on — the output is
empty exactly when the two line sequences are equal, and otherwise starts
with the two file-label header lines followed by at least one hunk — and
abstracts the hunk layout (difflib emits minimal context hunks; the model
emits one full-rewrite hunk). -/
def unified_diff (a b : List String) (fromfile tofile : String) : List String :=
  if a = b then []
  else
    ("--- " ++ fromfile) :: ("+++ " ++ tofile) :: "@@" ::
    (a.map (fun l => "-" ++ l) ++ b.map (fun l => "+" ++ l))

/-- diff.DiffResult. -/
structure DiffResult where
  has_differences : Bool
  diff_output : String
deriving Repr, DecidableEq

/-- Diff._generate_diff: split both texts into kept-ends lines, run the
unified-diff algorithm, report no differences on empty output and otherwise
join the diff lines with newlines. -/
def generate_diff (from_text to_text from_label to_label : String) : DiffResult :=
  let from_lines := pySplitlines from_text
  let to_lines := pySplitlines to_text
  let diff_lines := unified_diff from_lines to_lines from_label to_label
  if diff_lines.isEmpty then ⟨false, ""⟩
  else ⟨true, String.intercalate "\n" diff_lines⟩

/-- Diff.plain (push mode): cluster text normalized as JSON against the
local plaintext normalized from the state format, labels cluster and
plain_secrets.format.  The format argument models self.secret_state.format,
an attribute the SecretState class never actually defines — see the C5
theorem. -/
def Diff.plain (kube_secrets plain_secrets : String) (format : String) :
    Except String DiffResult := do
  let kube_n ← normalize_to_json kube_secrets "json"
  let plain_n ← normalize_to_json plain_secrets format
  .ok (generate_diff kube_n plain_n "cluster" (PLAIN_SECRETS_FILE ++ "." ++ format))

/-- Diff.pull (pull mode): same algorithm with swapped operands and labels. -/
def Diff.pull (kube_secrets plain_secrets : String) (format : String) :
    Except String DiffResult := do
  let plain_n ← normalize_to_json plain_secrets format
  let kube_n ← normalize_to_json kube_secrets "json"
  .ok (generate_diff plain_n kube_n (PLAIN_SECRETS_FILE ++ "." ++ format) "cluster")

/-- C6: the diff engine is reflexive — diffing any text against itself
reports no differences with empty output — and the empty string, any
whitespace-only text, and the literal empty array all normalize to the fixed
empty-array form, for every source format string. -/
theorem diff_reflexive_empty_normalization
    (X from_label to_label format ws : String) (hws : pyStrip ws = "") :
    generate_diff X X from_label to_label = ⟨false, ""⟩ ∧
    normalize_to_json "" format = .ok ("[]") ∧
    normalize_to_json ws format = .ok ("[]") ∧
    normalize_to_json "[]" format = .ok ("[]") := by
  refine ⟨?_, ?_, ?_, ?_⟩
  · simp [generate_diff, unified_diff]
  · simp [normalize_to_json]
  · simp [normalize_to_json, hws]
  · have h : pyStrip "[]" = "[]" := by decide
    simp [normalize_to_json, h]

/-- Witness for C6 at a concrete secrets text and whitespace-only text. -/
theorem diff_reflexive_empty_normalization_witness :
    generate_diff "[]" "[]" "cluster" "plain_secrets.json" = ⟨false, ""⟩ ∧
    normalize_to_json "" "json" = .ok ("[]") ∧
    normalize_to_json " \n\t" "json" = .ok ("[]") ∧
    normalize_to_json "[]" "json" = .ok ("[]") :=
  diff_reflexive_empty_normalization "[]" "cluster" "plain_secrets.json" "json"
    " \n\t" (by decide)

/-- Whether the first list is a leading segment of the second. -/
def leadsWith : List Char → List Char → Bool
  | [], _ => true
  | _ :: _, [] => false
  | p :: ps, c :: cs => p == c && leadsWith ps cs

/-- Model of str.startswith. -/
def strStartsWith (s pre : String) : Bool := leadsWith pre.data s.data

/-- Model of str.endswith. -/
def strEndsWith (s suf : String) : Bool := leadsWith suf.data.reverse s.data.reverse

/-- Split a character list on slashes, keeping empty components, the model
of str.split("/"). -/
def splitSlash (acc : List Char) : List Char → List String
  | [] => [String.mk acc.reverse]
  | c :: rest =>
    if c = '/' then String.mk acc.reverse :: splitSlash [] rest
    else splitSlash (c :: acc) rest

/-- Model of os.path.normpath for POSIX paths: collapse repeated separators,
drop single dots, resolve double dots lexically, keep up to two leading
slashes, and return a dot for an empty result. -/
def pyNormpath (path : String) : String :=
  if path = "" then "."
  else
    let initialSlashes : Nat :=
      if strStartsWith path "//" && !(strStartsWith path "///") then 2
      else if strStartsWith path "/" then 1 else 0
    let comps := splitSlash [] path.data
    let newComps := comps.foldl (fun acc comp =>
      if comp = "" ∨ comp = "." then acc
      else if comp ≠ ".." ∨ (initialSlashes = 0 ∧ acc = []) ∨
              (acc ≠ [] ∧ acc.getLast? = some "..") then acc ++ [comp]
      else if acc ≠ [] then acc.dropLast
      else acc) []
    let joined := String.intercalate "/" newComps
    let res := String.mk (List.replicate initialSlashes '/') ++ joined
    if res = "" then "." else res

/-- Prefix of a character list up to and including its last slash; empty
when no slash occurs. -/
def takeToLastSlash : List Char → List Char
  | [] => []
  | c :: rest =>
    if rest.contains '/' then c :: takeToLastSlash rest
    else if c = '/' then ['/']
    else []

/-- Model of os.path.dirname for POSIX paths: everything before the last
slash, with trailing slashes stripped unless the result is all slashes. -/
def pyDirname (p : String) : String :=
  let headCs := takeToLastSlash p.data
  if headCs.isEmpty then ""
  else if headCs.all (fun c => c == '/') then String.mk headCs
  else String.mk ((headCs.reverse.dropWhile (fun c => c == '/')).reverse)

/-- secret_state.normalize_tk_env_path: normalize the path, then ascend to
the containing directory when the path names a main.jsonnet file. -/
def normalize_tk_env_path (path : String) : String :=
  let p := pyNormpath path
  if strEndsWith p ("main.jsonnet") then pyDirname p else p

/-- The state held by secret_state.SecretState: the normalized environment
path and the two file paths.  The class defines no text-encoding or format
field, and from_path takes no format parameter — the C5 theorem evaluates
the consequences. -/
structure SecretState where
  tk_env_path : String
  plain_secrets_file_path : String
  sealed_secrets_file_path : String
deriving Repr, DecidableEq

/-- SecretState.from_path: normalize the path and join it with the two bare
file-name stems from the configuration module (pathlib join modelled as a
slash join; no extension of any kind is appended).  The TKEnvironment
resolver collaborator only validates the path and is external. -/
def SecretState.from_path (path : String) : SecretState :=
  let normalized_path := normalize_tk_env_path path
  ⟨normalized_path,
   normalized_path ++ "/" ++ PLAIN_SECRETS_FILE,
   normalized_path ++ "/" ++ SEALED_SECRETS_FILE⟩

/-- SecretState.plain_secrets: the read result of the plaintext file is the
text on success and the empty string on any error. -/
def SecretState.plain_secrets (read_result : Except String String) : String :=
  match read_result with
  | .ok s => s
  | .error _ => ""

/-- C5 evaluation: the state built by from_path carries no encoding tag and
its file names have no extension — from_path("/env") yields the bare paths
/env/plain_secrets and /env/sealed_secrets, not the extension-bearing
/env/plain_secrets.json the callers and tests expect. -/
theorem from_path_carries_no_encoding :
    SecretState.from_path ("/env") =
      ⟨"/env", "/env/plain_secrets", "/env/sealed_secrets"⟩ ∧
    (SecretState.from_path ("/env")).plain_secrets_file_path ≠ "/env/plain_secrets.json" ∧
    (SecretState.from_path ("/env")).sealed_secrets_file_path ≠ "/env/sealed_secrets.json" := by
  refine ⟨by decide, by decide, by decide⟩

/-- C7: reading the local plaintext file never raises — every read failure
yields the empty document and a successful read yields the exact text. -/
theorem plain_secrets_never_raises (e s : String) :
    SecretState.plain_secrets (.error e) = "" ∧
    SecretState.plain_secrets (.ok s) = s :=
  ⟨rfl, rfl⟩

/-- The per-record dict built inside Secrets.to_json: name, the decoded
plaintext data map, and the type property (empty string for a record with no
type field).  Decoding can raise, as secret.data does. -/
def secretDict (raw : RawSecret) : Except String (List (String × Json)) :=
  match Secret.data raw with
  | .error e => .error e
  | .ok pairs =>
      .ok [("name", Json.str raw.name),
           ("data", Json.obj (pairs.map (fun p => (p.key, Json.str p.plain_value)))),
           ("type", Json.str (Secret.type raw))]

/-- Build the output dicts for every manageable record in order. -/
def secretDicts : List RawSecret → Except String (List Json)
  | [] => .ok []
  | raw :: rest => do
      let d ← secretDict raw
      let tail ← secretDicts rest
      .ok (Json.obj d :: tail)

/-- Secrets.to_json: the canonical manageable-collection JSON, the
pretty-printed dump of the per-record dicts. -/
def Secrets.to_json (s : SecretsObj) : Except String String := do
  let ds ← secretDicts s.items
  .ok (jsonDumps (Json.arr ds))

/-- C10: a record with no type field is serialized with an empty-string type
(the classification default Opaque is not written into the output), and the
type key is present in every serialized record, always carrying the type
property of the record. -/
theorem to_json_type_key (raw : RawSecret) (d : List (String × Json))
    (h : secretDict raw = .ok d) :
    d.lookup "type" = some (Json.str (raw.type?.getD "")) ∧
    (raw.type? = none →
      d.lookup "type" = some (Json.str "") ∧
      d.lookup "type" ≠ some (Json.str "Opaque")) := by
  unfold secretDict at h
  cases hdata : Secret.data raw with
  | error e => rw [hdata] at h; exact absurd h (by simp)
  | ok pairs =>
      rw [hdata] at h
      have hd : d = [("name", Json.str raw.name),
                     ("data", Json.obj (pairs.map (fun p => (p.key, Json.str p.plain_value)))),
                     ("type", Json.str (Secret.type raw))] := by
        exact ((Except.ok.injEq _ _).mp h).symm
      subst hd
      refine ⟨?_, ?_⟩
      · simp [List.lookup, Secret.type]
      · intro hnone
        constructor
        · simp [List.lookup, Secret.type, hnone]
        · simp [List.lookup, Secret.type, hnone]

/-- Witness for C10 at a concrete typeless record. -/
theorem to_json_type_key_witness :
    ([("name", Json.str "app-secret"),
      ("data", Json.obj [("password", Json.str "secret123")]),
      ("type", Json.str "")] : List (String × Json)).lookup "type" =
        some (Json.str (wTypelessRaw.type?.getD "")) ∧
    (wTypelessRaw.type? = none →
      ([("name", Json.str "app-secret"),
        ("data", Json.obj [("password", Json.str "secret123")]),
        ("type", Json.str "")] : List (String × Json)).lookup "type" = some (Json.str "") ∧
      ([("name", Json.str "app-secret"),
        ("data", Json.obj [("password", Json.str "secret123")]),
        ("type", Json.str "")] : List (String × Json)).lookup "type" ≠
          some (Json.str "Opaque")) :=
  to_json_type_key wTypelessRaw _ (by rfl)

/-- The mutable cache slot of a SecretState instance: _secrets_cache, None
until a cluster fetch succeeds. -/
structure CacheState where
  secrets_cache : Option SecretsObj
deriving Repr, DecidableEq

/-- The two public operations that consult the cache. -/
inductive StateCall where
  | kube : StateCall
  | forb : StateCall
deriving Repr, DecidableEq

/-- The shared cache-filling step of kube_secrets and get_forbidden_secrets:
when the cache is empty, fetch the cluster listing (Secrets.for_tk_env,
whose result for this instance is the raw listing parameter) and build the
Secrets object; a construction error leaves the cache empty.  The returned
flag records whether a cluster fetch happened. -/
def loadCache (cluster : RawSecrets) (st : CacheState) :
    CacheState × Bool × Except String SecretsObj :=
  match st.secrets_cache with
  | some s => (st, false, .ok s)
  | none =>
    match Secrets.init cluster with
    | .ok s => (⟨some s⟩, true, .ok s)
    | .error e => (st, true, .error e)

/-- One call of kube_secrets or get_forbidden_secrets: both first ensure the
cache is loaded; kube_secrets then returns to_json of the cached collection
and get_forbidden_secrets returns its forbidden list (results omitted here,
the step records the state transition and whether a fetch happened). -/
def stateStep (cluster : RawSecrets) (st : CacheState) (c : StateCall) :
    CacheState × Bool :=
  let r := loadCache cluster st
  (r.1, r.2.1)

/-- Run a sequence of calls from a state, counting cluster fetches. -/
def runCalls (cluster : RawSecrets) (st : CacheState) :
    List StateCall → CacheState × Nat
  | [] => (st, 0)
  | c :: rest =>
    let (st1, fetched) := stateStep cluster st c
    let (stF, n) := runCalls cluster st1 rest
    (stF, (if fetched then 1 else 0) + n)

lemma runCalls_cached (cluster : RawSecrets) (s : SecretsObj)
    (calls : List StateCall) :
    runCalls cluster ⟨some s⟩ calls = (⟨some s⟩, 0) := by
  induction calls with
  | nil => rfl
  | cons c rest ih =>
      simp [runCalls, stateStep, loadCache, ih]

/-- C8: per instance the cluster is fetched at most once — for every
sequence of kube_secrets and get_forbidden_secrets calls in any order
starting from the fresh state, the fetch count is one for a nonempty
sequence (zero for the empty one), the first call does the fetch, and the
cache afterwards holds the full collection (manageable and forbidden). -/
theorem cluster_fetched_at_most_once (cluster : RawSecrets) (sobj : SecretsObj)
    (hinit : Secrets.init cluster = .ok sobj) (calls : List StateCall) :
    (runCalls cluster ⟨none⟩ calls).2 = (if calls.isEmpty then 0 else 1) ∧
    (calls.isEmpty = false →
      (runCalls cluster ⟨none⟩ calls).1.secrets_cache = some sobj) := by
  cases calls with
  | nil => exact ⟨rfl, by intro h; exact absurd h (by simp)⟩
  | cons c rest =>
      have hstep : stateStep cluster ⟨none⟩ c = (⟨some sobj⟩, true) := by
        simp [stateStep, loadCache, hinit]
      constructor
      · show (runCalls cluster ⟨none⟩ (c :: rest)).2 = 1
        simp [runCalls, hstep, runCalls_cached]
      · intro h
        show (runCalls cluster ⟨none⟩ (c :: rest)).1.secrets_cache = some sobj
        simp [runCalls, hstep, runCalls_cached]

/-- Witness for C8 at a concrete listing and a three-call sequence. -/
theorem cluster_fetched_at_most_once_witness :
    (runCalls wC2Listing ⟨none⟩ [StateCall.kube, StateCall.forb, StateCall.kube]).2 =
      (if ([StateCall.kube, StateCall.forb, StateCall.kube] : List StateCall).isEmpty
       then 0 else 1) ∧
    (([StateCall.kube, StateCall.forb, StateCall.kube] : List StateCall).isEmpty = false →
      (runCalls wC2Listing ⟨none⟩
        [StateCall.kube, StateCall.forb, StateCall.kube]).1.secrets_cache = some wC2Obj) :=
  cluster_fetched_at_most_once wC2Listing wC2Obj (by rfl)
    [StateCall.kube, StateCall.forb, StateCall.kube]

/-- Dict item access secret[k] on a parsed JSON value: KeyError when the key
is missing, TypeError when the value is not a dict. -/
def jGet (j : Json) (k : String) : Except String Json :=
  match j with
  | .obj fs =>
    match fs.lookup k with
    | some v => .ok v
    | none => .error ("KeyError: " ++ k)
  | _ => .error ("TypeError: not a dict")

/-- The inner loop of Seal.run: one encryption-backend call per key/value
pair of the record's data map, in order, the key preserved next to the
returned ciphertext.  The second component is the trace of backend calls
actually made, as (name, value) argument pairs; the first failing call
aborts the loop.  A non-string value is a TypeError (subprocess input must
be text). -/
def sealPairs (backend : String → String → Except String String) (nm : String) :
    List (String × Json) → Except String (List (String × String)) × List (String × String)
  | [] => (.ok [], [])
  | (k, v) :: rest =>
    match v with
    | .str value =>
      (match backend nm value with
       | .ok c =>
         let r := sealPairs backend nm rest
         (match r.1 with
          | .ok enc => (.ok ((k, c) :: enc), (nm, value) :: r.2)
          | .error e => (.error e, (nm, value) :: r.2))
       | .error e => (.error e, [(nm, value)]))
    | _ => (.error ("TypeError: seal value is not a string"), [])

/-- The SealedSecret resource dict built by Seal.run for one record: fixed
kind and apiVersion, metadata naming and namespacing it like the source
record, the source type forwarded into spec.template when present, and all
encrypted pairs under spec.encryptedData. -/
def mkSealedSecret (nm ns : String) (typeField : Option Json)
    (enc : List (String × String)) : Json :=
  Json.obj
    [("kind", Json.str "SealedSecret"),
     ("apiVersion", Json.str "bitnami.com/v1alpha1"),
     ("metadata", Json.obj [("name", Json.str nm), ("namespace", Json.str ns)]),
     ("spec", Json.obj
       [("template", Json.obj
          ([("metadata", Json.obj [("name", Json.str nm), ("namespace", Json.str ns)])] ++
           (match typeField with
            | some t => [("type", t)]
            | none => []))),
        ("encryptedData", Json.obj (enc.map (fun p => (p.1, Json.str p.2))))])]

/-- Process one deserialized record of the Seal.run loop: read its data map
and name, seal every pair, and build the SealedSecret resource.  The second
component is the trace of backend calls made. -/
def sealSecretRes (backend : String → String → Except String String) (ns : String)
    (secret : Json) : Except String Json × List (String × String) :=
  match jGet secret "data" with
  | .error e => (.error e, [])
  | .ok (Json.obj pairs) =>
    match jGet secret "name" with
    | .ok (Json.str nm) =>
      let r := sealPairs backend nm pairs
      (match r.1 with
       | .error e => (.error e, r.2)
       | .ok enc =>
         let typeField := match jGet secret "type" with
           | .ok t => some t
           | .error _ => none
         (.ok (mkSealedSecret nm ns typeField enc), r.2))
    | .ok _ => (.error ("TypeError: secret name is not a string"), [])
    | .error e => (.error e, [])
  | .ok _ => (.error ("TypeError: secret data is not a dict"), [])

/-- The outer loop of Seal.run over all deserialized records, accumulating
the sealed resources and the backend-call trace; the first failing record
aborts. -/
def sealSecretsList (backend : String → String → Except String String) (ns : String) :
    List Json → Except String (List Json) × List (String × String)
  | [] => (.ok [], [])
  | s :: rest =>
    let r := sealSecretRes backend ns s
    match r.1 with
    | .error e => (.error e, r.2)
    | .ok res =>
      let rr := sealSecretsList backend ns rest
      (match rr.1 with
       | .ok tail => (.ok (res :: tail), r.2 ++ rr.2)
       | .error e => (.error e, r.2 ++ rr.2))

/-- Error message of Seal.run for a missing or empty plaintext file (inner
quotes of the source f-string elided). -/
def noPlainSecretsMsg (format : String) : String :=
  "No plain secrets found. Please create " ++ PLAIN_SECRETS_FILE ++ "." ++ format ++
  " or run tkseal pull first."

/-- Seal.run: read the plaintext text (already fetched via plain_secrets),
reject empty content, deserialize per the configured format, seal every pair
of every record, and only then serialize and overwrite the sealed-secrets
file.  The result triple is (outcome, sealed-file content after the run,
trace of backend calls made); every aborting branch leaves the file content
untouched because the write is the final statement of the source. -/
def Seal.run (backend : String → String → Except String String) (ns format : String)
    (plain_secrets_text : String) (sealed_file : String) :
    Except String Unit × String × List (String × String) :=
  if plain_secrets_text = "" || pyStrip plain_secrets_text = "" then
    (.error (noPlainSecretsMsg format), sealed_file, [])
  else
    match deserialize_secrets plain_secrets_text format with
    | .error e => (.error ("Invalid format in plain_secrets file: " ++ e), sealed_file, [])
    | .ok (Json.arr plain_list) =>
      let r := sealSecretsList backend ns plain_list
      (match r.1 with
       | .error e => (.error e, sealed_file, r.2)
       | .ok sealed =>
         match serialize_secrets (Json.arr sealed) format with
         | .ok out => (.ok (), out, r.2)
         | .error e => (.error e, sealed_file, r.2))
    | .ok _ => (.error ("TypeError: plain secrets document is not a list"), sealed_file, [])

lemma sealPairs_trace_ok (backend : String → String → Except String String)
    (nm : String) :
    ∀ pairs, (sealPairs backend nm pairs).1.isOk = true →
      ∀ c ∈ (sealPairs backend nm pairs).2, (backend c.1 c.2).isOk = true := by
  intro pairs
  induction pairs with
  | nil => intro _ c hc; simp [sealPairs] at hc
  | cons kv rest ih =>
      obtain ⟨k, v⟩ := kv
      intro hok c hc
      cases v with
      | str value =>
          cases hb : backend nm value with
          | error e =>
              have hv : sealPairs backend nm ((k, Json.str value) :: rest) =
                  (.error e, [(nm, value)]) := by
                simp only [sealPairs]; rw [hb]
              rw [hv] at hok
              simp [Except.isOk, Except.toBool] at hok
          | ok cval =>
              cases hr : sealPairs backend nm rest with
              | mk r1 r2 =>
                cases r1 with
                | error e =>
                    have hv : sealPairs backend nm ((k, Json.str value) :: rest) =
                        (.error e, (nm, value) :: r2) := by
                      simp only [sealPairs]; rw [hb, hr]
                    rw [hv] at hok
                    simp [Except.isOk, Except.toBool] at hok
                | ok enc =>
                    have hv : sealPairs backend nm ((k, Json.str value) :: rest) =
                        (.ok ((k, cval) :: enc), (nm, value) :: r2) := by
                      simp only [sealPairs]; rw [hb, hr]
                    rw [hv] at hc
                    simp only [List.mem_cons] at hc
                    rcases hc with hc | hc
                    · subst hc
                      simp [hb, Except.isOk, Except.toBool]
                    · have hok2 : (sealPairs backend nm rest).1.isOk = true := by
                        rw [hr]; rfl
                      have := ih hok2 c
                      rw [hr] at this
                      exact this hc
      | null =>
          have hv : sealPairs backend nm ((k, Json.null) :: rest) =
              (.error ("TypeError: seal value is not a string"), []) := by
            simp only [sealPairs]
          rw [hv] at hok
          simp [Except.isOk, Except.toBool] at hok
      | bool b =>
          have hv : sealPairs backend nm ((k, Json.bool b) :: rest) =
              (.error ("TypeError: seal value is not a string"), []) := by
            simp only [sealPairs]
          rw [hv] at hok
          simp [Except.isOk, Except.toBool] at hok
      | num n =>
          have hv : sealPairs backend nm ((k, Json.num n) :: rest) =
              (.error ("TypeError: seal value is not a string"), []) := by
            simp only [sealPairs]
          rw [hv] at hok
          simp [Except.isOk, Except.toBool] at hok
      | arr xs =>
          have hv : sealPairs backend nm ((k, Json.arr xs) :: rest) =
              (.error ("TypeError: seal value is not a string"), []) := by
            simp only [sealPairs]
          rw [hv] at hok
          simp [Except.isOk, Except.toBool] at hok
      | obj fs =>
          have hv : sealPairs backend nm ((k, Json.obj fs) :: rest) =
              (.error ("TypeError: seal value is not a string"), []) := by
            simp only [sealPairs]
          rw [hv] at hok
          simp [Except.isOk, Except.toBool] at hok

lemma sealSecretRes_eq_pairs (backend : String → String → Except String String)
    (ns : String) (s : Json) (pairs : List (String × Json)) (nm : String)
    (hd : jGet s "data" = .ok (Json.obj pairs))
    (hn : jGet s "name" = .ok (Json.str nm)) :
    (sealSecretRes backend ns s).2 = (sealPairs backend nm pairs).2 ∧
    ((sealSecretRes backend ns s).1.isOk = true →
      (sealPairs backend nm pairs).1.isOk = true) := by
  cases hr : sealPairs backend nm pairs with
  | mk r1 r2 =>
    cases r1 with
    | error e =>
        have hv : sealSecretRes backend ns s = (.error e, r2) := by
          unfold sealSecretRes
          rw [hd, hn]
          dsimp only
          rw [hr]
        rw [hv]
        exact ⟨rfl, fun h => h⟩
    | ok enc =>
        have hv : sealSecretRes backend ns s =
            (.ok (mkSealedSecret nm ns
              (match jGet s "type" with | .ok t => some t | .error _ => none) enc), r2) := by
          unfold sealSecretRes
          rw [hd, hn]
          dsimp only
          rw [hr]
        rw [hv]
        exact ⟨rfl, fun _ => rfl⟩

lemma sealSecretRes_trace_ok (backend : String → String → Except String String)
    (ns : String) (s : Json)
    (h : (sealSecretRes backend ns s).1.isOk = true) :
    ∀ c ∈ (sealSecretRes backend ns s).2, (backend c.1 c.2).isOk = true := by
  intro c hc
  cases hd : jGet s "data" with
  | error e =>
      have hv : sealSecretRes backend ns s = (.error e, []) := by
        unfold sealSecretRes; rw [hd]
      rw [hv] at hc
      simp at hc
  | ok jd =>
      cases jd with
      | obj pairs =>
          cases hn : jGet s "name" with
          | error e =>
              have hv : sealSecretRes backend ns s = (.error e, []) := by
                unfold sealSecretRes; rw [hd, hn]
              rw [hv] at hc
              simp at hc
          | ok jn =>
              cases jn with
              | str nm =>
                  obtain ⟨htr, hlift⟩ := sealSecretRes_eq_pairs backend ns s pairs nm hd hn
                  rw [htr] at hc
                  exact sealPairs_trace_ok backend nm pairs (hlift h) c hc
              | null =>
                  have hv : sealSecretRes backend ns s =
                      (.error ("TypeError: secret name is not a string"), []) := by
                    unfold sealSecretRes; rw [hd, hn]
                  rw [hv] at hc; simp at hc
              | bool b =>
                  have hv : sealSecretRes backend ns s =
                      (.error ("TypeError: secret name is not a string"), []) := by
                    unfold sealSecretRes; rw [hd, hn]
                  rw [hv] at hc; simp at hc
              | num n =>
                  have hv : sealSecretRes backend ns s =
                      (.error ("TypeError: secret name is not a string"), []) := by
                    unfold sealSecretRes; rw [hd, hn]
                  rw [hv] at hc; simp at hc
              | arr xs =>
                  have hv : sealSecretRes backend ns s =
                      (.error ("TypeError: secret name is not a string"), []) := by
                    unfold sealSecretRes; rw [hd, hn]
                  rw [hv] at hc; simp at hc
              | obj gs =>
                  have hv : sealSecretRes backend ns s =
                      (.error ("TypeError: secret name is not a string"), []) := by
                    unfold sealSecretRes; rw [hd, hn]
                  rw [hv] at hc; simp at hc
      | null =>
          have hv : sealSecretRes backend ns s =
              (.error ("TypeError: secret data is not a dict"), []) := by
            unfold sealSecretRes; rw [hd]
          rw [hv] at hc; simp at hc
      | bool b =>
          have hv : sealSecretRes backend ns s =
              (.error ("TypeError: secret data is not a dict"), []) := by
            unfold sealSecretRes; rw [hd]
          rw [hv] at hc; simp at hc
      | num n =>
          have hv : sealSecretRes backend ns s =
              (.error ("TypeError: secret data is not a dict"), []) := by
            unfold sealSecretRes; rw [hd]
          rw [hv] at hc; simp at hc
      | str st =>
          have hv : sealSecretRes backend ns s =
              (.error ("TypeError: secret data is not a dict"), []) := by
            unfold sealSecretRes; rw [hd]
          rw [hv] at hc; simp at hc
      | arr xs =>
          have hv : sealSecretRes backend ns s =
              (.error ("TypeError: secret data is not a dict"), []) := by
            unfold sealSecretRes; rw [hd]
          rw [hv] at hc; simp at hc

lemma sealSecretsList_trace_ok (backend : String → String → Except String String)
    (ns : String) :
    ∀ ss, (sealSecretsList backend ns ss).1.isOk = true →
      ∀ c ∈ (sealSecretsList backend ns ss).2, (backend c.1 c.2).isOk = true := by
  intro ss
  induction ss with
  | nil => intro _ c hc; simp [sealSecretsList] at hc
  | cons s rest ih =>
      intro hok c hc
      cases hr : sealSecretRes backend ns s with
      | mk r1 r2 =>
        cases r1 with
        | error e =>
            have hv : sealSecretsList backend ns (s :: rest) = (.error e, r2) := by
              simp only [sealSecretsList]; rw [hr]
            rw [hv] at hok
            simp [Except.isOk, Except.toBool] at hok
        | ok res =>
            cases hrr : sealSecretsList backend ns rest with
            | mk rr1 rr2 =>
              cases rr1 with
              | error e =>
                  have hv : sealSecretsList backend ns (s :: rest) =
                      (.error e, r2 ++ rr2) := by
                    simp only [sealSecretsList]; rw [hr, hrr]
                  rw [hv] at hok
                  simp [Except.isOk, Except.toBool] at hok
              | ok tail =>
                  have hv : sealSecretsList backend ns (s :: rest) =
                      (.ok (res :: tail), r2 ++ rr2) := by
                    simp only [sealSecretsList]; rw [hr, hrr]
                  rw [hv] at hc
                  simp only [List.mem_append] at hc
                  rcases hc with hc | hc
                  · have h1 : (sealSecretRes backend ns s).1.isOk = true := by
                      rw [hr]; rfl
                    have := sealSecretRes_trace_ok backend ns s h1 c
                    rw [hr] at this
                    exact this hc
                  · have h2 : (sealSecretsList backend ns rest).1.isOk = true := by
                      rw [hrr]; rfl
                    have := ih h2 c
                    rw [hrr] at this
                    exact this hc

/-- C3: the seal pipeline is atomic with respect to the encrypted-secrets
file — every aborting run (empty input, malformed content, or any failing
backend call) leaves the file content unchanged, because the write is the
final step of the run; and a run that does write has had every backend call
it made succeed. -/
theorem seal_atomic_no_partial_write
    (backend : String → String → Except String String) (ns format text fs : String) :
    ((Seal.run backend ns format text fs).1.isOk = false →
      (Seal.run backend ns format text fs).2.1 = fs) ∧
    ((Seal.run backend ns format text fs).1.isOk = true →
      ∀ c ∈ (Seal.run backend ns format text fs).2.2,
        (backend c.1 c.2).isOk = true) := by
  unfold Seal.run
  split
  · exact ⟨fun _ => rfl, fun h => by simp [Except.isOk, Except.toBool] at h⟩
  · cases hdes : deserialize_secrets text format with
    | error e =>
        exact ⟨fun _ => rfl, fun h => by simp [Except.isOk, Except.toBool] at h⟩
    | ok j =>
        cases j with
        | arr plain_list =>
            dsimp only
            cases hr : sealSecretsList backend ns plain_list with
            | mk r1 r2 =>
              cases r1 with
              | error e =>
                  dsimp only
                  exact ⟨fun _ => rfl, fun h => by simp [Except.isOk, Except.toBool] at h⟩
              | ok sealed =>
                  dsimp only
                  cases hser : serialize_secrets (Json.arr sealed) format with
                  | ok out =>
                      refine ⟨fun h => by simp [Except.isOk, Except.toBool] at h, ?_⟩
                      intro h c hc
                      have h1 : (sealSecretsList backend ns plain_list).1.isOk = true := by
                        rw [hr]; rfl
                      have hmem := sealSecretsList_trace_ok backend ns plain_list h1 c
                      rw [hr] at hmem
                      exact hmem hc
                  | error e =>
                      exact ⟨fun _ => rfl, fun h => by simp [Except.isOk, Except.toBool] at h⟩
        | null =>
            exact ⟨fun _ => rfl, fun h => by simp [Except.isOk, Except.toBool] at h⟩
        | bool b =>
            exact ⟨fun _ => rfl, fun h => by simp [Except.isOk, Except.toBool] at h⟩
        | num n =>
            exact ⟨fun _ => rfl, fun h => by simp [Except.isOk, Except.toBool] at h⟩
        | str s2 =>
            exact ⟨fun _ => rfl, fun h => by simp [Except.isOk, Except.toBool] at h⟩
        | obj fs2 =>
            exact ⟨fun _ => rfl, fun h => by simp [Except.isOk, Except.toBool] at h⟩

/-- Backend that fails every call, used by the C3 witness. -/
def wBadBackend : String → String → Except String String :=
  fun _ _ => .error ("sealing failed")

/-- Backend that succeeds on every call, used by the C3 and C4 witnesses. -/
def wGoodBackend : String → String → Except String String :=
  fun nm v => .ok ("enc-" ++ nm ++ "-" ++ v)

/-- Concrete two-key plaintext document used by the seal witnesses. -/
def wPlainText : String :=
  "[\x7b\"name\": \"app\", \"data\": \x7b\"k\": \"v1\", \"j\": \"v2\"\x7d\x7d]"

/-- Witness for C3: with an always-failing backend the sealed file keeps its
old content, and with an always-succeeding backend every traced call
succeeded. -/
theorem seal_atomic_no_partial_write_witness :
    (Seal.run wBadBackend "ns" "json" wPlainText "OLD-SEALED").2.1 = "OLD-SEALED" ∧
    (∀ c ∈ (Seal.run wGoodBackend "ns" "json" wPlainText "OLD-SEALED").2.2,
      (wGoodBackend c.1 c.2).isOk = true) :=
  ⟨(seal_atomic_no_partial_write wBadBackend "ns" "json" wPlainText "OLD-SEALED").1 rfl,
   (seal_atomic_no_partial_write wGoodBackend "ns" "json" wPlainText "OLD-SEALED").2 rfl⟩

lemma sealPairs_all_ok (backend : String → String → Except String String)
    (nm : String) :
    ∀ pairs : List (String × String),
      (∀ p ∈ pairs, (backend nm p.2).isOk = true) →
      ∃ enc, sealPairs backend nm (pairs.map (fun p => (p.1, Json.str p.2))) =
        (.ok enc, pairs.map (fun p => (nm, p.2))) ∧ enc.length = pairs.length := by
  intro pairs
  induction pairs with
  | nil => intro _; exact ⟨[], rfl, rfl⟩
  | cons p rest ih =>
      intro hall
      obtain ⟨k, v⟩ := p
      have hb1 : (backend nm v).isOk = true := hall (k, v) (by simp)
      cases hb : backend nm v with
      | error e =>
          rw [hb] at hb1
          simp [Except.isOk, Except.toBool] at hb1
      | ok cval =>
          obtain ⟨enc, heq, hlen⟩ := ih (fun q hq => hall q (by simp [hq]))
          refine ⟨(k, cval) :: enc, ?_, by simp [hlen]⟩
          simp only [List.map_cons]
          simp only [sealPairs]
          rw [hb]
          dsimp only
          rw [heq]

/-- The plaintext record dict of the shape Seal.run consumes: a name and a
data map of string values. -/
def mkPlainRecord (nm : String) (pairs : List (String × String)) : Json :=
  Json.obj [("name", Json.str nm),
            ("data", Json.obj (pairs.map (fun p => (p.1, Json.str p.2))))]

/-- Extract spec.encryptedData from a sealed resource. -/
def encryptedDataOf (j : Json) : Except String Json := do
  jGet (← jGet j "spec") "encryptedData"

/-- C4: the backend is invoked exactly once per key/value pair — for a
record with n data keys the call trace is exactly the n (name, value) pairs
in order, the run succeeds and its resource carries an encrypted-data map
with exactly n entries — and sealing the empty-array document makes zero
backend calls and writes the empty-array file. -/
theorem seal_one_backend_call_per_pair
    (backend : String → String → Except String String) (ns nm fs : String)
    (pairs : List (String × String))
    (hall : ∀ p ∈ pairs, (backend nm p.2).isOk = true) :
    (sealPairs backend nm (pairs.map (fun p => (p.1, Json.str p.2)))).2 =
      pairs.map (fun p => (nm, p.2)) ∧
    (∃ enc,
      (sealSecretRes backend ns (mkPlainRecord nm pairs)).1 =
        .ok (mkSealedSecret nm ns none enc) ∧
      encryptedDataOf (mkSealedSecret nm ns none enc) =
        .ok (Json.obj (enc.map (fun p => (p.1, Json.str p.2)))) ∧
      enc.length = pairs.length) ∧
    Seal.run backend ns "json" "[]" fs = (.ok (), "[]", []) := by
  obtain ⟨enc, heq, hlen⟩ := sealPairs_all_ok backend nm pairs hall
  refine ⟨by rw [heq], ⟨enc, ?_, rfl, hlen⟩, rfl⟩
  have hd : jGet (mkPlainRecord nm pairs) "data" =
      .ok (Json.obj (pairs.map (fun p => (p.1, Json.str p.2)))) := rfl
  have hn : jGet (mkPlainRecord nm pairs) "name" = .ok (Json.str nm) := rfl
  unfold sealSecretRes
  rw [hd, hn]
  dsimp only
  rw [heq]
  rfl

/-- Concrete two-key pair list used by the C4 witness. -/
def wTwoPairs : List (String × String) :=
  [("username", "admin"), ("password", "secret123")]

/-- Witness for C4 at a concrete two-key record and the empty document. -/
theorem seal_one_backend_call_per_pair_witness :
    (sealPairs wGoodBackend "app" (wTwoPairs.map (fun p => (p.1, Json.str p.2)))).2 =
      wTwoPairs.map (fun p => ("app", p.2)) ∧
    (∃ enc,
      (sealSecretRes wGoodBackend "prod" (mkPlainRecord "app" wTwoPairs)).1 =
        .ok (mkSealedSecret "app" "prod" none enc) ∧
      encryptedDataOf (mkSealedSecret "app" "prod" none enc) =
        .ok (Json.obj (enc.map (fun p => (p.1, Json.str p.2)))) ∧
      enc.length = wTwoPairs.length) ∧
    Seal.run wGoodBackend "prod" "json" "[]" "OLD-FILE" = (.ok (), "[]", []) :=
  seal_one_backend_call_per_pair wGoodBackend "prod" "app" "OLD-FILE" wTwoPairs
    (by decide)

lemma b64decodeToBytes_error (s e : String)
    (h : b64decodeToBytes s = .error e) :
    e = incorrectPaddingMsg ∨ e = invalidCharCountMsg := by
  unfold b64decodeToBytes at h
  dsimp only at h
  split at h
  · exact absurd h (by simp)
  · right; exact ((Except.error.injEq _ _).mp h).symm
  · split at h
    · exact absurd h (by simp)
    · left; exact ((Except.error.injEq _ _).mp h).symm
  · split at h
    · exact absurd h (by simp)
    · left; exact ((Except.error.injEq _ _).mp h).symm

lemma bytesToAscii_error (bs : List Nat) (e : String)
    (h : bytesToAscii bs = .error e) : e = invalidUtf8Msg := by
  unfold bytesToAscii at h
  split at h
  · exact absurd h (by simp)
  · exact ((Except.error.injEq _ _).mp h).symm

lemma b64decodeStr_error (s e : String) (h : b64decodeStr s = .error e) :
    e = incorrectPaddingMsg ∨ e = invalidCharCountMsg ∨ e = invalidUtf8Msg := by
  unfold b64decodeStr at h
  cases hb : b64decodeToBytes s with
  | error e0 =>
      rw [hb] at h
      have he : e = e0 := by
        have : (Except.error e0 : Except String (List Nat)) >>= bytesToAscii =
            .error e0 := rfl
        rw [this] at h
        exact ((Except.error.injEq _ _).mp h).symm
      subst he
      rcases b64decodeToBytes_error s e hb with h1 | h1
      · exact Or.inl h1
      · exact Or.inr (Or.inl h1)
  | ok bs =>
      rw [hb] at h
      have hby : bytesToAscii bs = .error e := by
        have : (Except.ok bs : Except String (List Nat)) >>= bytesToAscii =
            bytesToAscii bs := rfl
        rw [this] at h
        exact h
      exact Or.inr (Or.inr (bytesToAscii_error bs e hby))

lemma decodePairs_spec : ∀ l : List (String × String),
    (∀ e, decodePairs l = .error e →
      e = incorrectPaddingMsg ∨ e = invalidCharCountMsg ∨ e = invalidUtf8Msg) ∧
    (∀ ps, decodePairs l = .ok ps →
      ps.map (fun p => (p.key, p.encoded_value)) = l ∧
      ∀ p ∈ ps, b64decodeStr p.encoded_value = .ok p.plain_value) := by
  intro l
  induction l with
  | nil =>
      constructor
      · intro e h; exact absurd h (by simp [decodePairs])
      · intro ps h
        have hps : ps = [] := ((Except.ok.injEq _ _).mp h).symm
        subst hps
        exact ⟨rfl, by intro p hp; simp at hp⟩
  | cons kv rest ih =>
      obtain ⟨k, ev⟩ := kv
      cases hb : b64decodeStr ev with
      | error e0 =>
          have hv : decodePairs ((k, ev) :: rest) = .error e0 := by
            simp only [decodePairs]
            rw [hb]
            rfl
          constructor
          · intro e h
            rw [hv] at h
            have he : e = e0 := ((Except.error.injEq _ _).mp h).symm
            subst he
            exact b64decodeStr_error ev e hb
          · intro ps h
            rw [hv] at h
            exact absurd h (by simp)
      | ok pv =>
          cases hr : decodePairs rest with
          | error e1 =>
              have hv : decodePairs ((k, ev) :: rest) = .error e1 := by
                simp only [decodePairs]
                rw [hb]
                show (Except.ok pv : Except String String) >>=
                  (fun pv => decodePairs rest >>= fun tail =>
                    .ok (⟨k, pv, ev⟩ :: tail)) = .error e1
                rw [show (Except.ok pv : Except String String) >>=
                  (fun pv => decodePairs rest >>= fun tail =>
                    .ok (⟨k, pv, ev⟩ :: tail)) =
                  (decodePairs rest >>= fun tail =>
                    .ok (⟨k, pv, ev⟩ :: tail)) from rfl]
                rw [hr]
                rfl
              constructor
              · intro e h
                rw [hv] at h
                have he : e = e1 := ((Except.error.injEq _ _).mp h).symm
                subst he
                exact ih.1 e hr
              · intro ps h
                rw [hv] at h
                exact absurd h (by simp)
          | ok tail =>
              have hv : decodePairs ((k, ev) :: rest) =
                  .ok (⟨k, pv, ev⟩ :: tail) := by
                simp only [decodePairs]
                rw [hb]
                show (Except.ok pv : Except String String) >>=
                  (fun pv => decodePairs rest >>= fun t2 =>
                    .ok (⟨k, pv, ev⟩ :: t2)) = _
                rw [show (Except.ok pv : Except String String) >>=
                  (fun pv => decodePairs rest >>= fun t2 =>
                    .ok (⟨k, pv, ev⟩ :: t2)) =
                  (decodePairs rest >>= fun t2 =>
                    .ok (⟨k, pv, ev⟩ :: t2)) from rfl]
                rw [hr]
                rfl
              constructor
              · intro e h
                rw [hv] at h
                exact absurd h (by simp)
              · intro ps h
                rw [hv] at h
                have hps : ps = ⟨k, pv, ev⟩ :: tail :=
                  ((Except.ok.injEq _ _).mp h).symm
                subst hps
                obtain ⟨hmap, hall⟩ := ih.2 tail hr
                refine ⟨?_, ?_⟩
                · simp only [List.map_cons, hmap]
                · intro p hp
                  rcases List.mem_cons.mp hp with hp | hp
                  · subst hp; exact hb
                  · exact hall p hp

/-- C9 (amended): decoding a manageable record base64-decodes each value in
order into plaintext pairs, but a malformed value fails with the base64
library's own error — one of the fixed library messages, carrying neither
the record name nor the offending key. -/
theorem secret_decode_amended (raw : RawSecret) :
    (∀ e, Secret.data raw = .error e →
      e = incorrectPaddingMsg ∨ e = invalidCharCountMsg ∨ e = invalidUtf8Msg) ∧
    (∀ ps, Secret.data raw = .ok ps →
      ps.map (fun p => (p.key, p.encoded_value)) = raw.data ∧
      ∀ p ∈ ps, b64decodeStr p.encoded_value = .ok p.plain_value) :=
  decodePairs_spec raw.data

/-- Record with a malformed (badly padded) base64 value, used for C9. -/
def wMalformedRaw : RawSecret := ⟨"app-secret", some ("Opaque"), [("password", "YQ")]⟩

/-- Counterexample for C9 as stated: the decode error for the malformed
value of record app-secret, key password, is the bare library message
Incorrect padding, which contains neither the record name nor the key. -/
theorem base64_error_names_nothing :
    Secret.data wMalformedRaw = .error incorrectPaddingMsg ∧
    ¬ ("app-secret".data <:+: incorrectPaddingMsg.data) ∧
    ¬ ("password".data <:+: incorrectPaddingMsg.data) :=
  ⟨rfl, by decide, by decide⟩

/-- Record with valid base64 data, used by the C9 witness. -/
def wValidRaw : RawSecret := ⟨"app", some ("Opaque"), [("user", "YWJj")]⟩

/-- Witness for C9 (amended) at a concrete record whose value decodes. -/
theorem secret_decode_amended_witness :
    ([⟨"user", "abc", "YWJj"⟩] : List SecretDataPair).map
        (fun p => (p.key, p.encoded_value)) = wValidRaw.data ∧
    ∀ p ∈ ([⟨"user", "abc", "YWJj"⟩] : List SecretDataPair),
      b64decodeStr p.encoded_value = .ok p.plain_value :=
  (secret_decode_amended wValidRaw).2 [⟨"user", "abc", "YWJj"⟩] rfl
